import Mathlib

/-!
Verification of the ellipse editor (`src/script.js`).

The script manipulates a single ellipse under a shear-rotate-translate
transform with pointer events.  We embed the geometry helpers and the three
pointer-event handlers as Lean definitions over `ℝ` (the script computes with
JS numbers; we model the intended real arithmetic) and prove the stated
properties of the bounding-box sampler, the hit tester, the inverse transform
and the interaction state machine.
-/

noncomputable section
open Classical

namespace Ellipse

/-- The eight handle roles of `getHandlesFromBox` (`role` strings in the script). -/
inductive Role where
  | topLeft
  | topRight
  | bottomLeft
  | bottomRight
  | topMiddle
  | bottomMiddle
  | leftMiddle
  | rightMiddle
deriving DecidableEq

/-- `role.includes('left')` on the script's role strings
(`top-left`, `bottom-left`, `left-middle`). -/
def Role.includesLeft : Role → Bool
  | .topLeft | .bottomLeft | .leftMiddle => true
  | _ => false

/-- `role.includes('top')` on the script's role strings
(`top-left`, `top-right`, `top-middle`). -/
def Role.includesTop : Role → Bool
  | .topLeft | .topRight | .topMiddle => true
  | _ => false

/-- `role.includes('middle')` on the script's role strings. -/
def Role.includesMiddle : Role → Bool
  | .topMiddle | .bottomMiddle | .leftMiddle | .rightMiddle => true
  | _ => false

/-- The four corner roles (used in hypotheses about corner-handle drags). -/
def Role.isCorner : Role → Bool
  | .topLeft | .topRight | .bottomLeft | .bottomRight => true
  | _ => false

/-- The diagonally opposite corner role (only meaningful on corner roles;
on middle roles we map each role to itself). -/
def oppositeRole : Role → Role
  | .topLeft => .bottomRight
  | .topRight => .bottomLeft
  | .bottomLeft => .topRight
  | .bottomRight => .topLeft
  | r => r

/-- A handle object: position plus role, as produced by `getHandlesFromBox`. -/
structure Handle where
  x : ℝ
  y : ℝ
  role : Role

/-- The anchor object stored in `activeAnchor`.  Center anchors (rotate mode and
middle handles) carry no `role`; `getOppositeCornerScreenCoord` attaches one. -/
structure Anchor where
  x : ℝ
  y : ℝ
  role : Option Role

/-- The `ellipseData` record of the script. -/
structure EllipseData where
  centerX : ℝ
  centerY : ℝ
  radiusX : ℝ
  radiusY : ℝ
  rotation : ℝ
  shearX : ℝ
  shearY : ℝ
  activeHandle : Option Handle

/-- A bounding box, as returned by `getEllipseBoundingBox`. -/
structure Box where
  x : ℝ
  y : ℝ
  width : ℝ
  height : ℝ

/-- `rotatePoint(x, y, angle)`: rotate about the origin by `angle` radians. -/
def rotatePoint (x y angle : ℝ) : ℝ × ℝ :=
  (x * Real.cos angle - y * Real.sin angle,
   x * Real.sin angle + y * Real.cos angle)

/-- `shearPoint(x, y, shearX, shearY)`: multiply by the shear matrix
`[[1, shearX], [shearY, 1]]`. -/
def shearPoint (x y shearX shearY : ℝ) : ℝ × ℝ :=
  (x + shearX * y, y + shearY * x)

/-- The forward affine map applied to each sample in `getEllipsePoints`
(lines 74-77 of the script): shear, then rotate.  Translation by the center is
added by the caller. -/
def transformPoint (x y shearX shearY rotation : ℝ) : ℝ × ℝ :=
  let p := shearPoint x y shearX shearY
  rotatePoint p.1 p.2 rotation

/-- The inverse affine map computed inline in `isPointInEllipse`
(lines 136-153): rotate by `-rotation`, then multiply by the inverse shear
matrix `(1/det)·[[1, -shearX], [-shearY, 1]]` with `det = 1 - shearX·shearY`.
`none` models the `DEGENERATE` early return when `|det| < 1e-10`. -/
def inverseTransformPoint (x y shearX shearY rotation : ℝ) : Option (ℝ × ℝ) :=
  let p := rotatePoint x y (-rotation)
  let det := 1 - shearX * shearY
  if |det| < 1e-10 then
    none
  else
    let inv00 := 1 / det
    let inv01 := -shearX / det
    let inv10 := -shearY / det
    let inv11 := 1 / det
    some (p.1 * inv00 + p.2 * inv01, p.1 * inv10 + p.2 * inv11)

/-- `getEllipsePoints(ellipseData, steps)`: sample `t = 2π·i/steps` for
`i = 0..steps`, take the local point `(radiusX·cos t, radiusY·sin t)`, shear,
rotate, and translate by the center. -/
def getEllipsePoints (e : EllipseData) (steps : ℕ) : List (ℝ × ℝ) :=
  (List.range (steps + 1)).map fun i : ℕ =>
    let t := 2 * Real.pi * i / steps
    let x0 := e.radiusX * Real.cos t
    let y0 := e.radiusY * Real.sin t
    let p1 := shearPoint x0 y0 e.shearX e.shearY
    let p2 := rotatePoint p1.1 p1.2 e.rotation
    (p2.1 + e.centerX, p2.2 + e.centerY)

/-- Least element of a list of reals.  The script's scan starts at `Infinity`
and replaces it on the first comparison, so on the (always nonempty) sample
list it computes exactly this fold; `[]` never occurs. -/
def listMin : List ℝ → ℝ
  | [] => 0
  | a :: rest => rest.foldl min a

/-- Greatest element of a list of reals; see `listMin`. -/
def listMax : List ℝ → ℝ
  | [] => 0
  | a :: rest => rest.foldl max a

/-- `getEllipseBoundingBox(ellipseData)`: min/max reduction over the x and y
coordinates of the 61 sample points. -/
def getEllipseBoundingBox (e : EllipseData) : Box :=
  let pts := getEllipsePoints e 60
  let xs := pts.map Prod.fst
  let ys := pts.map Prod.snd
  { x := listMin xs
    y := listMin ys
    width := listMax xs - listMin xs
    height := listMax ys - listMin ys }

/-- `isPointInBox(mx, my, box)`: axis-aligned containment, inclusive bounds. -/
def isPointInBox (mx my : ℝ) (box : Box) : Bool :=
  mx ≥ box.x && mx ≤ box.x + box.width && my ≥ box.y && my ≤ box.y + box.height

/-- `isPointInEllipse(mx, my, ellipseData)`: translate to the center, invert
rotation then shear, and test `x²/radiusX² + y²/radiusY² ≤ 1`; a degenerate
shear (`|det| < 1e-10`) returns `false`. -/
def isPointInEllipse (mx my : ℝ) (e : EllipseData) : Bool :=
  let l0 := (mx - e.centerX, my - e.centerY)
  let l1 := rotatePoint l0.1 l0.2 (-e.rotation)
  let det := 1 - e.shearX * e.shearY
  if |det| < 1e-10 then
    false
  else
    let inv00 := 1 / det
    let inv01 := -e.shearX / det
    let inv10 := -e.shearY / det
    let inv11 := 1 / det
    let lx := l1.1 * inv00 + l1.2 * inv01
    let ly := l1.1 * inv10 + l1.2 * inv11
    decide ((lx * lx) / (e.radiusX * e.radiusX) + (ly * ly) / (e.radiusY * e.radiusY) ≤ 1)

/-- `getHandlesFromBox(box)`: four corners then four edge midpoints, in the
script's enumeration order. -/
def getHandlesFromBox (box : Box) : List Handle :=
  let midX := box.x + box.width / 2
  let midY := box.y + box.height / 2
  [ ⟨box.x, box.y, .topLeft⟩,
    ⟨box.x + box.width, box.y, .topRight⟩,
    ⟨box.x, box.y + box.height, .bottomLeft⟩,
    ⟨box.x + box.width, box.y + box.height, .bottomRight⟩,
    ⟨midX, box.y, .topMiddle⟩,
    ⟨midX, box.y + box.height, .bottomMiddle⟩,
    ⟨box.x, midY, .leftMiddle⟩,
    ⟨box.x + box.width, midY, .rightMiddle⟩ ]

/-- `findHandleHit(handles, mx, my, radius)`: first handle whose squared
distance to the pointer is at most `radius²`. -/
def findHandleHit : List Handle → ℝ → ℝ → ℝ → Option Handle
  | [], _, _, _ => none
  | handle :: rest, mx, my, radius =>
    let dx := mx - handle.x
    let dy := my - handle.y
    if dx * dx + dy * dy ≤ radius * radius then some handle
    else findHandleHit rest mx my radius

/-- `getOppositeCornerScreenCoord(box, handleRole)`: the diagonally opposite
box corner (with its role); mid-side roles fall back to the box center with no
role attached. -/
def getOppositeCornerScreenCoord (box : Box) (handleRole : Role) : Anchor :=
  match handleRole with
  | .topLeft => ⟨box.x + box.width, box.y + box.height, some .bottomRight⟩
  | .topRight => ⟨box.x, box.y + box.height, some .bottomLeft⟩
  | .bottomLeft => ⟨box.x + box.width, box.y, some .topRight⟩
  | .bottomRight => ⟨box.x, box.y, some .topLeft⟩
  | _ => ⟨box.x + box.width / 2, box.y + box.height / 2, none⟩

/-- `computeEllipseCenterForBoxTopLeft(radiusX, …, cornerType, cornerPoint)`:
bounding box of the zero-centered shape with the given parameters, then the
offset from the `cornerType` corner of that box to `cornerPoint`.  A missing or
mid-side `cornerType` falls through the `switch` and yields `(0, 0)`. -/
def computeEllipseCenterForBoxTopLeft (radiusX radiusY shearX shearY rotation : ℝ)
    (cornerType : Option Role) (cornerPoint : ℝ × ℝ) : ℝ × ℝ :=
  let tempEllipse : EllipseData := ⟨0, 0, radiusX, radiusY, rotation, shearX, shearY, none⟩
  let box := getEllipseBoundingBox tempEllipse
  match cornerType with
  | some .topLeft => (cornerPoint.1 - box.x, cornerPoint.2 - box.y)
  | some .topRight => (cornerPoint.1 - (box.x + box.width), cornerPoint.2 - box.y)
  | some .bottomRight =>
      (cornerPoint.1 - (box.x + box.width), cornerPoint.2 - (box.y + box.height))
  | some .bottomLeft => (cornerPoint.1 - box.x, cornerPoint.2 - (box.y + box.height))
  | _ => (0, 0)

/-- `'resize-shear'` / `'rotate'`: the `editMode` values. -/
inductive EditMode where
  | resizeShear
  | rotate
deriving DecidableEq

/-- The module-level mutable variables of the script, gathered into one state
record: `isDrawing`, `ellipseData`, `hasEllipse`, `showBoundingBox`,
`editMode`, `isDragging`, `dragHandle`, `lastMousePos`, `activeAnchor`. -/
structure AppState where
  isDrawing : Bool
  ellipseData : EllipseData
  hasEllipse : Bool
  showBoundingBox : Bool
  editMode : EditMode
  isDragging : Bool
  dragHandle : Option Handle
  lastMousePos : ℝ × ℝ
  activeAnchor : Option Anchor

/-- The initial values of the module-level variables. -/
def initialState : AppState :=
  { isDrawing := false
    ellipseData := ⟨0, 0, 0, 0, 0, 0, 0, none⟩
    hasEllipse := false
    showBoundingBox := false
    editMode := .resizeShear
    isDragging := false
    dragHandle := none
    lastMousePos := (0, 0)
    activeAnchor := none }

/-- `onMouseDown(e)`.  `drawAll` only repaints, so it does not appear in the
state transition.  The `isPointInEllipse` branches at the end of the
`showBoundingBox` case perform no mutation in the script and are omitted for
the same reason. -/
def onMouseDown (s : AppState) (mx my : ℝ) (button : ℕ) : AppState :=
  let s1 : AppState := { s with lastMousePos := (mx, my) }
  if button = 2 then s1
  else if !s1.hasEllipse then
    if !s1.isDrawing then
      -- first click: set the center
      { s1 with
        ellipseData :=
          { s1.ellipseData with centerX := mx, centerY := my, radiusX := 0, radiusY := 0 }
        isDrawing := true }
    else
      -- second click: finalize the ellipse
      let e1 :=
        if s1.ellipseData.radiusX = 0 ∧ s1.ellipseData.radiusY = 0 then
          { s1.ellipseData with radiusX := 10, radiusY := 10 }
        else s1.ellipseData
      { s1 with ellipseData := e1, isDrawing := false, hasEllipse := true, showBoundingBox := true }
  else if s1.showBoundingBox then
    let box := getEllipseBoundingBox s1.ellipseData
    let handles := getHandlesFromBox box
    match findHandleHit handles mx my 6 with
    | some hitHandle =>
      let anchor : Anchor :=
        if s1.editMode = EditMode.rotate then
          ⟨s1.ellipseData.centerX, s1.ellipseData.centerY, none⟩
        else if hitHandle.role.includesMiddle then
          ⟨s1.ellipseData.centerX, s1.ellipseData.centerY, none⟩
        else
          getOppositeCornerScreenCoord box hitHandle.role
      { s1 with
        isDragging := true
        dragHandle := some hitHandle
        ellipseData := { s1.ellipseData with activeHandle := some hitHandle }
        activeAnchor := some anchor }
    | none =>
      if isPointInBox mx my box then
        { s1 with
          editMode := if s1.editMode = EditMode.resizeShear then .rotate else .resizeShear }
      else s1
  else
    if isPointInEllipse mx my s1.ellipseData then
      { s1 with showBoundingBox := true, editMode := .resizeShear }
    else s1

/-- `onMouseMove(e)`.  Note that `lastMousePos` is updated only inside the
dragging branch, and that the creation branch returns before reaching it. -/
def onMouseMove (s : AppState) (mx my : ℝ) : AppState :=
  if !s.hasEllipse && s.isDrawing then
    { s with
      ellipseData :=
        { s.ellipseData with
          radiusX := |mx - s.ellipseData.centerX|
          radiusY := |my - s.ellipseData.centerY| } }
  else if s.hasEllipse && s.isDragging then
    match s.dragHandle with
    | none => s
    | some dragHandle =>
      let dx := mx - s.lastMousePos.1
      let dy := my - s.lastMousePos.2
      let s2 :=
        if s.editMode = EditMode.resizeShear then
          if dragHandle.role.includesMiddle then
            if dragHandle.role = Role.topMiddle ∨ dragHandle.role = Role.bottomMiddle then
              { s with
                ellipseData := { s.ellipseData with shearX := s.ellipseData.shearX + dx * 0.01 } }
            else
              { s with
                ellipseData := { s.ellipseData with shearY := s.ellipseData.shearY + dy * 0.01 } }
          else
            match s.activeAnchor with
            | none => s
              -- the script would dereference `null` here; a corner drag always
              -- sets `activeAnchor` on pointer-down, so this is unreachable
            | some anchor =>
              let signX : ℝ := if dragHandle.role.includesLeft then -1 else 1
              let signY : ℝ := if dragHandle.role.includesTop then -1 else 1
              let rX := max 5 (s.ellipseData.radiusX + signX * dx)
              let rY := max 5 (s.ellipseData.radiusY + signY * dy)
              let c := computeEllipseCenterForBoxTopLeft rX rY
                s.ellipseData.shearX s.ellipseData.shearY s.ellipseData.rotation
                anchor.role (anchor.x, anchor.y)
              { s with
                ellipseData :=
                  { s.ellipseData with
                    radiusX := rX, radiusY := rY, centerX := c.1, centerY := c.2 } }
        else
          { s with
            ellipseData := { s.ellipseData with rotation := s.ellipseData.rotation + dx * 0.01 } }
      { s2 with lastMousePos := (mx, my) }
  else s

/-- `onMouseUp(e)`: the handler only clears the drag bookkeeping (the box and
handles it computes are used for `console.log` only). -/
def onMouseUp (s : AppState) : AppState :=
  { s with isDragging := false, dragHandle := none, activeAnchor := none }

/-- `onContextMenu(e)`: hide the bounding box. -/
def onContextMenu (s : AppState) : AppState :=
  { s with showBoundingBox := false }

/-- A pointer event as consumed by the registered listeners. -/
inductive Event where
  | down (x y : ℝ) (button : ℕ)
  | move (x y : ℝ)
  | up
  | context

/-- Dispatch one event to its handler. -/
def step (s : AppState) : Event → AppState
  | .down x y b => onMouseDown s x y b
  | .move x y => onMouseMove s x y
  | .up => onMouseUp s
  | .context => onContextMenu s

/-- Process a list of events in delivery order. -/
def run (s : AppState) (events : List Event) : AppState :=
  events.foldl step s

/-- Process a list of pointer-move events given as `(mx, my)` positions. -/
def runMoves (s : AppState) (ms : List (ℝ × ℝ)) : AppState :=
  ms.foldl (fun st m => onMouseMove st m.1 m.2) s

/-- A state in the middle of a corner-handle drag in resize-shear mode:
exactly the configuration `onMouseDown` establishes when it hits a corner
handle (see `onMouseDown_corner_hit`). -/
def midCornerDrag (s : AppState) (h : Handle) (a : Anchor) : Prop :=
  s.hasEllipse = true ∧
  s.isDragging = true ∧
  s.dragHandle = some h ∧
  s.editMode = EditMode.resizeShear ∧
  h.role.isCorner = true ∧
  s.activeAnchor = some a ∧
  a.role = some (oppositeRole h.role)

/-- Steps (a)-(d) of the spec's anchor-preserving resize algorithm, written
from the spec's words: bounding box of the zero-centered shape with the new
radii and current shear/rotation, then the offset from the box corner selected
by `cornerRole` (via the corner-to-box-corner mapping) to the anchor point.
The claim under review applies the mapping to the dragged corner's role; the
code applies it to the anchor corner's role, so `cornerRole` is a parameter. -/
def specResizeCenter (rX rY shearX shearY rotation : ℝ) (cornerRole : Role)
    (anchor : ℝ × ℝ) : ℝ × ℝ :=
  let box := getEllipseBoundingBox ⟨0, 0, rX, rY, rotation, shearX, shearY, none⟩
  let corner : ℝ × ℝ :=
    match cornerRole with
    | .topLeft => (box.x, box.y)
    | .topRight => (box.x + box.width, box.y)
    | .bottomRight => (box.x + box.width, box.y + box.height)
    | .bottomLeft => (box.x, box.y + box.height)
    | _ => (box.x, box.y)
  (anchor.1 - corner.1, anchor.2 - corner.2)

/-- A finalized shape (radii 50 and 30, centered at (100, 100), no shear or
rotation) with its bounding box visible and no drag in progress. -/
def visState : AppState :=
  { isDrawing := false
    ellipseData := ⟨100, 100, 50, 30, 0, 0, 0, none⟩
    hasEllipse := true
    showBoundingBox := true
    editMode := .resizeShear
    isDragging := false
    dragHandle := none
    lastMousePos := (0, 0)
    activeAnchor := none }

/-- The state mid-drag after pointer-down on the top-left corner handle of
`visState`: the anchor is the bottom-right corner (150, 130) of its box. -/
def dragState : AppState :=
  { isDrawing := false
    ellipseData := ⟨100, 100, 50, 30, 0, 0, 0, some ⟨50, 70, Role.topLeft⟩⟩
    hasEllipse := true
    showBoundingBox := true
    editMode := .resizeShear
    isDragging := true
    dragHandle := some ⟨50, 70, Role.topLeft⟩
    lastMousePos := (50, 70)
    activeAnchor := some ⟨150, 130, some Role.bottomRight⟩ }

/-- The state after the first creation click at (0, 0). -/
def creatingState : AppState := { initialState with isDrawing := true }

/-! ### Fold lemmas for the min/max reduction -/

lemma foldl_min_le_init (l : List ℝ) (a : ℝ) : l.foldl min a ≤ a := by
  induction l generalizing a with
  | nil => exact le_refl a
  | cons b l ih => exact le_trans (ih (min a b)) (min_le_left a b)

lemma init_le_foldl_max (l : List ℝ) (a : ℝ) : a ≤ l.foldl max a := by
  induction l generalizing a with
  | nil => exact le_refl a
  | cons b l ih => exact le_trans (le_max_left a b) (ih (max a b))

lemma foldl_min_le_mem (l : List ℝ) (a x : ℝ) (hx : x ∈ l) : l.foldl min a ≤ x := by
  induction l generalizing a with
  | nil => cases hx
  | cons b l ih =>
    rcases List.mem_cons.1 hx with hxb | hxl
    · subst hxb
      exact le_trans (foldl_min_le_init l (min a x)) (min_le_right a x)
    · exact ih (min a b) hxl

lemma mem_le_foldl_max (l : List ℝ) (a x : ℝ) (hx : x ∈ l) : x ≤ l.foldl max a := by
  induction l generalizing a with
  | nil => cases hx
  | cons b l ih =>
    rcases List.mem_cons.1 hx with hxb | hxl
    · subst hxb
      exact le_trans (le_max_right a x) (init_le_foldl_max l (max a x))
    · exact ih (max a b) hxl

lemma le_foldl_min (l : List ℝ) (a b : ℝ) (hab : b ≤ a) (h : ∀ x ∈ l, b ≤ x) :
    b ≤ l.foldl min a := by
  induction l generalizing a with
  | nil => exact hab
  | cons c l ih =>
    exact ih (min a c) (le_min hab (h c (List.mem_cons_self c l)))
      fun x hx => h x (List.mem_cons_of_mem c hx)

lemma foldl_max_le (l : List ℝ) (a b : ℝ) (hab : a ≤ b) (h : ∀ x ∈ l, x ≤ b) :
    l.foldl max a ≤ b := by
  induction l generalizing a with
  | nil => exact hab
  | cons c l ih =>
    exact ih (max a c) (max_le hab (h c (List.mem_cons_self c l)))
      fun x hx => h x (List.mem_cons_of_mem c hx)

lemma listMin_le (l : List ℝ) (x : ℝ) (hx : x ∈ l) : listMin l ≤ x := by
  cases l with
  | nil => cases hx
  | cons a rest =>
    rcases List.mem_cons.1 hx with hxa | hxr
    · subst hxa; exact foldl_min_le_init rest x
    · exact foldl_min_le_mem rest a x hxr

lemma le_listMax (l : List ℝ) (x : ℝ) (hx : x ∈ l) : x ≤ listMax l := by
  cases l with
  | nil => cases hx
  | cons a rest =>
    rcases List.mem_cons.1 hx with hxa | hxr
    · subst hxa; exact init_le_foldl_max rest x
    · exact mem_le_foldl_max rest a x hxr

lemma le_listMin (l : List ℝ) (b : ℝ) (hl : l ≠ []) (h : ∀ x ∈ l, b ≤ x) :
    b ≤ listMin l := by
  cases l with
  | nil => exact absurd rfl hl
  | cons a rest =>
    exact le_foldl_min rest a b (h a (List.mem_cons_self a rest))
      fun x hx => h x (List.mem_cons_of_mem a hx)

lemma listMax_le (l : List ℝ) (b : ℝ) (hl : l ≠ []) (h : ∀ x ∈ l, x ≤ b) :
    listMax l ≤ b := by
  cases l with
  | nil => exact absurd rfl hl
  | cons a rest =>
    exact foldl_max_le rest a b (h a (List.mem_cons_self a rest))
      fun x hx => h x (List.mem_cons_of_mem a hx)

lemma listMin_eq (l : List ℝ) (m : ℝ) (hmem : m ∈ l) (hlb : ∀ x ∈ l, m ≤ x) :
    listMin l = m :=
  le_antisymm (listMin_le l m hmem)
    (le_listMin l m (List.ne_nil_of_mem hmem) hlb)

lemma listMax_eq (l : List ℝ) (m : ℝ) (hmem : m ∈ l) (hub : ∀ x ∈ l, x ≤ m) :
    listMax l = m :=
  le_antisymm (listMax_le l m (List.ne_nil_of_mem hmem) hub)
    (le_listMax l m hmem)

lemma listMin_le_listMax (l : List ℝ) (hl : l ≠ []) : listMin l ≤ listMax l := by
  cases l with
  | nil => exact absurd rfl hl
  | cons a rest => exact le_trans (foldl_min_le_init rest a) (init_le_foldl_max rest a)

lemma foldl_min_map_add (l : List ℝ) (a c : ℝ) :
    (l.map fun x => x + c).foldl min (a + c) = l.foldl min a + c := by
  induction l generalizing a with
  | nil => rfl
  | cons b l ih =>
    simp only [List.map_cons, List.foldl_cons]
    rw [min_add_add_right a b c, ih]

lemma foldl_max_map_add (l : List ℝ) (a c : ℝ) :
    (l.map fun x => x + c).foldl max (a + c) = l.foldl max a + c := by
  induction l generalizing a with
  | nil => rfl
  | cons b l ih =>
    simp only [List.map_cons, List.foldl_cons]
    rw [max_add_add_right a b c, ih]

lemma listMin_map_add (l : List ℝ) (c : ℝ) (hl : l ≠ []) :
    listMin (l.map fun x => x + c) = listMin l + c := by
  cases l with
  | nil => exact absurd rfl hl
  | cons a rest => exact foldl_min_map_add rest a c

lemma listMax_map_add (l : List ℝ) (c : ℝ) (hl : l ≠ []) :
    listMax (l.map fun x => x + c) = listMax l + c := by
  cases l with
  | nil => exact absurd rfl hl
  | cons a rest => exact foldl_max_map_add rest a c

/-! ### Bounding-box lemmas -/

lemma getEllipsePoints_ne_nil (e : EllipseData) : getEllipsePoints e 60 ≠ [] := by
  simp [getEllipsePoints, List.range_succ]

lemma box_ignores_activeHandle (e : EllipseData) (o : Option Handle) :
    getEllipseBoundingBox { e with activeHandle := o } = getEllipseBoundingBox e := by
  cases e
  rfl

lemma getEllipsePoints_center (e : EllipseData) :
    getEllipsePoints e 60 =
      (getEllipsePoints { e with centerX := 0, centerY := 0 } 60).map
        (fun q => (q.1 + e.centerX, q.2 + e.centerY)) := by
  unfold getEllipsePoints
  simp only [List.map_map]
  congr 1
  funext i
  simp [Function.comp]

lemma map_fst_getEllipsePoints_center (e : EllipseData) :
    (getEllipsePoints e 60).map Prod.fst =
      ((getEllipsePoints { e with centerX := 0, centerY := 0 } 60).map Prod.fst).map
        (fun v => v + e.centerX) := by
  rw [getEllipsePoints_center e]
  simp only [List.map_map]
  congr 1

lemma map_snd_getEllipsePoints_center (e : EllipseData) :
    (getEllipsePoints e 60).map Prod.snd =
      ((getEllipsePoints { e with centerX := 0, centerY := 0 } 60).map Prod.snd).map
        (fun v => v + e.centerY) := by
  rw [getEllipsePoints_center e]
  simp only [List.map_map]
  congr 1

/-- Translating the center translates the sampled bounding box and leaves its
width and height unchanged. -/
lemma box_translate (e : EllipseData) :
    getEllipseBoundingBox e =
      ⟨(getEllipseBoundingBox { e with centerX := 0, centerY := 0 }).x + e.centerX,
       (getEllipseBoundingBox { e with centerX := 0, centerY := 0 }).y + e.centerY,
       (getEllipseBoundingBox { e with centerX := 0, centerY := 0 }).width,
       (getEllipseBoundingBox { e with centerX := 0, centerY := 0 }).height⟩ := by
  have hx0 : (getEllipsePoints { e with centerX := 0, centerY := 0 } 60).map Prod.fst ≠ [] := by
    simp [List.map_eq_nil_iff, getEllipsePoints_ne_nil]
  have hy0 : (getEllipsePoints { e with centerX := 0, centerY := 0 } 60).map Prod.snd ≠ [] := by
    simp [List.map_eq_nil_iff, getEllipsePoints_ne_nil]
  simp only [getEllipseBoundingBox]
  rw [map_fst_getEllipsePoints_center e, map_snd_getEllipsePoints_center e,
    listMin_map_add _ _ hx0, listMax_map_add _ _ hx0,
    listMin_map_add _ _ hy0, listMax_map_add _ _ hy0]
  congr 1 <;> ring

/-- With no shear and no rotation the samples are `(cx + rx·cos t, cy + ry·sin t)`. -/
lemma getEllipsePoints_axis (cx cy rx ry : ℝ) (o : Option Handle) :
    getEllipsePoints ⟨cx, cy, rx, ry, 0, 0, 0, o⟩ 60 =
      (List.range 61).map fun i : ℕ =>
        (cx + rx * Real.cos (2 * Real.pi * i / 60), cy + ry * Real.sin (2 * Real.pi * i / 60)) := by
  unfold getEllipsePoints
  refine List.map_congr_left ?_
  intro i _
  simp only [shearPoint, rotatePoint, Real.cos_zero, Real.sin_zero]
  norm_num
  constructor <;> ring

/-- The sampled bounding box of an axis-aligned ellipse is exact: the samples
at `i = 0, 15, 30, 45` hit the four extreme points. -/
lemma box_axis (cx cy rx ry : ℝ) (hrx : 0 ≤ rx) (hry : 0 ≤ ry) (o : Option Handle) :
    getEllipseBoundingBox ⟨cx, cy, rx, ry, 0, 0, 0, o⟩ = ⟨cx - rx, cy - ry, 2 * rx, 2 * ry⟩ := by
  have hxs : (getEllipsePoints ⟨cx, cy, rx, ry, 0, 0, 0, o⟩ 60).map Prod.fst =
      (List.range 61).map fun i : ℕ => cx + rx * Real.cos (2 * Real.pi * i / 60) := by
    rw [getEllipsePoints_axis]
    simp [List.map_map]
  have hys : (getEllipsePoints ⟨cx, cy, rx, ry, 0, 0, 0, o⟩ 60).map Prod.snd =
      (List.range 61).map fun i : ℕ => cy + ry * Real.sin (2 * Real.pi * i / 60) := by
    rw [getEllipsePoints_axis]
    simp [List.map_map]
  have ht30 : 2 * Real.pi * ((30 : ℕ) : ℝ) / 60 = Real.pi := by push_cast; ring
  have ht0 : 2 * Real.pi * ((0 : ℕ) : ℝ) / 60 = 0 := by push_cast; ring
  have ht45 : 2 * Real.pi * ((45 : ℕ) : ℝ) / 60 = Real.pi + Real.pi / 2 := by push_cast; ring
  have ht15 : 2 * Real.pi * ((15 : ℕ) : ℝ) / 60 = Real.pi / 2 := by push_cast; ring
  have hsin45 : Real.sin (Real.pi + Real.pi / 2) = -1 := by
    rw [Real.sin_add]
    simp
  have hminx : listMin ((getEllipsePoints ⟨cx, cy, rx, ry, 0, 0, 0, o⟩ 60).map Prod.fst)
      = cx - rx := by
    rw [hxs]
    refine listMin_eq _ _ ?_ ?_
    · refine List.mem_map.2 ⟨30, List.mem_range.2 (by norm_num), ?_⟩
      rw [ht30, Real.cos_pi]
      ring
    · intro v hv
      obtain ⟨i, _, rfl⟩ := List.mem_map.1 hv
      have hc := Real.neg_one_le_cos (2 * Real.pi * (i : ℝ) / 60)
      nlinarith
  have hmaxx : listMax ((getEllipsePoints ⟨cx, cy, rx, ry, 0, 0, 0, o⟩ 60).map Prod.fst)
      = cx + rx := by
    rw [hxs]
    refine listMax_eq _ _ ?_ ?_
    · refine List.mem_map.2 ⟨0, List.mem_range.2 (by norm_num), ?_⟩
      rw [ht0, Real.cos_zero]
      ring
    · intro v hv
      obtain ⟨i, _, rfl⟩ := List.mem_map.1 hv
      have hc := Real.cos_le_one (2 * Real.pi * (i : ℝ) / 60)
      nlinarith
  have hminy : listMin ((getEllipsePoints ⟨cx, cy, rx, ry, 0, 0, 0, o⟩ 60).map Prod.snd)
      = cy - ry := by
    rw [hys]
    refine listMin_eq _ _ ?_ ?_
    · refine List.mem_map.2 ⟨45, List.mem_range.2 (by norm_num), ?_⟩
      rw [ht45, hsin45]
      ring
    · intro v hv
      obtain ⟨i, _, rfl⟩ := List.mem_map.1 hv
      have hs := Real.neg_one_le_sin (2 * Real.pi * (i : ℝ) / 60)
      nlinarith
  have hmaxy : listMax ((getEllipsePoints ⟨cx, cy, rx, ry, 0, 0, 0, o⟩ 60).map Prod.snd)
      = cy + ry := by
    rw [hys]
    refine listMax_eq _ _ ?_ ?_
    · refine List.mem_map.2 ⟨15, List.mem_range.2 (by norm_num), ?_⟩
      rw [ht15, Real.sin_pi_div_two]
      ring
    · intro v hv
      obtain ⟨i, _, rfl⟩ := List.mem_map.1 hv
      have hs := Real.sin_le_one (2 * Real.pi * (i : ℝ) / 60)
      nlinarith
  simp only [getEllipseBoundingBox, hminx, hmaxx, hminy, hmaxy]
  congr 1 <;> ring

/-! ### State-machine step lemmas -/

lemma corner_not_middle (r : Role) (h : r.isCorner = true) : r.includesMiddle = false := by
  cases r <;> simp_all [Role.isCorner, Role.includesMiddle]

lemma oppositeRole_of_corner (box : Box) (r : Role) (h : r.isCorner = true) :
    (getOppositeCornerScreenCoord box r).role = some (oppositeRole r) := by
  cases r <;> simp_all [Role.isCorner, getOppositeCornerScreenCoord, oppositeRole]

/-- Unfolding of `onMouseMove` on a state in the middle of a corner drag:
radii are updated by the signed displacement and clamped at 5, and the center
is recomputed from the anchor via `computeEllipseCenterForBoxTopLeft`. -/
lemma onMouseMove_corner (s : AppState) (h : Handle) (a : Anchor) (mx my : ℝ)
    (H : midCornerDrag s h a) :
    onMouseMove s mx my =
      { s with
        ellipseData :=
          { s.ellipseData with
            radiusX := max 5 (s.ellipseData.radiusX +
              (if h.role.includesLeft then -1 else 1) * (mx - s.lastMousePos.1))
            radiusY := max 5 (s.ellipseData.radiusY +
              (if h.role.includesTop then -1 else 1) * (my - s.lastMousePos.2))
            centerX := (computeEllipseCenterForBoxTopLeft
              (max 5 (s.ellipseData.radiusX +
                (if h.role.includesLeft then -1 else 1) * (mx - s.lastMousePos.1)))
              (max 5 (s.ellipseData.radiusY +
                (if h.role.includesTop then -1 else 1) * (my - s.lastMousePos.2)))
              s.ellipseData.shearX s.ellipseData.shearY s.ellipseData.rotation
              a.role (a.x, a.y)).1
            centerY := (computeEllipseCenterForBoxTopLeft
              (max 5 (s.ellipseData.radiusX +
                (if h.role.includesLeft then -1 else 1) * (mx - s.lastMousePos.1)))
              (max 5 (s.ellipseData.radiusY +
                (if h.role.includesTop then -1 else 1) * (my - s.lastMousePos.2)))
              s.ellipseData.shearX s.ellipseData.shearY s.ellipseData.rotation
              a.role (a.x, a.y)).2 }
        lastMousePos := (mx, my) } := by
  obtain ⟨hEll, hDrag, hDH, hMode, hCorner, hAnchor, hRole⟩ := H
  simp [onMouseMove, hEll, hDrag, hDH, hAnchor, hMode, corner_not_middle h.role hCorner]

lemma box_mk_activeHandle (cx cy rx ry rot sx sy : ℝ) (o : Option Handle) :
    getEllipseBoundingBox ⟨cx, cy, rx, ry, rot, sx, sy, o⟩ =
      getEllipseBoundingBox ⟨cx, cy, rx, ry, rot, sx, sy, none⟩ := rfl

lemma box_translate_mk (cx cy rx ry rot sx sy : ℝ) (o : Option Handle) :
    getEllipseBoundingBox ⟨cx, cy, rx, ry, rot, sx, sy, o⟩ =
      ⟨(getEllipseBoundingBox ⟨0, 0, rx, ry, rot, sx, sy, none⟩).x + cx,
       (getEllipseBoundingBox ⟨0, 0, rx, ry, rot, sx, sy, none⟩).y + cy,
       (getEllipseBoundingBox ⟨0, 0, rx, ry, rot, sx, sy, none⟩).width,
       (getEllipseBoundingBox ⟨0, 0, rx, ry, rot, sx, sy, none⟩).height⟩ := by
  rw [box_translate ⟨cx, cy, rx, ry, rot, sx, sy, o⟩]
  rfl

/-- One corner-drag move leaves the screen position of the corner opposite the
dragged handle exactly at the anchor. -/
lemma anchor_fixed_step (s : AppState) (h : Handle) (a : Anchor) (mx my : ℝ)
    (H : midCornerDrag s h a) :
    (getOppositeCornerScreenCoord
        (getEllipseBoundingBox (onMouseMove s mx my).ellipseData) h.role).x = a.x ∧
    (getOppositeCornerScreenCoord
        (getEllipseBoundingBox (onMouseMove s mx my).ellipseData) h.role).y = a.y := by
  have hCorner := H.2.2.2.2.1
  have hRole := H.2.2.2.2.2.2
  rw [onMouseMove_corner s h a mx my H]
  rcases s with ⟨isD, e, hasE, showB, em, isDr, dh, lm, aa⟩
  rcases e with ⟨ecx, ecy, erx, ery, erot, esx, esy, eah⟩
  rcases a with ⟨ax, ay, arole⟩
  rcases h with ⟨hx, hy, hrole⟩
  cases hrole
  case topMiddle => exact absurd hCorner (by simp [Role.isCorner])
  case bottomMiddle => exact absurd hCorner (by simp [Role.isCorner])
  case leftMiddle => exact absurd hCorner (by simp [Role.isCorner])
  case rightMiddle => exact absurd hCorner (by simp [Role.isCorner])
  all_goals simp only [oppositeRole] at hRole
  all_goals subst hRole
  all_goals rw [box_translate_mk]
  all_goals simp only [computeEllipseCenterForBoxTopLeft, getOppositeCornerScreenCoord]
  all_goals constructor <;> ring

lemma midCornerDrag_move (s : AppState) (h : Handle) (a : Anchor) (mx my : ℝ)
    (H : midCornerDrag s h a) : midCornerDrag (onMouseMove s mx my) h a := by
  rw [onMouseMove_corner s h a mx my H]
  obtain ⟨hEll, hDrag, hDH, hMode, hCorner, hAnchor, hRole⟩ := H
  exact ⟨hEll, hDrag, hDH, hMode, hCorner, hAnchor, hRole⟩

lemma runMoves_cons (s : AppState) (m : ℝ × ℝ) (rest : List (ℝ × ℝ)) :
    runMoves s (m :: rest) = runMoves (onMouseMove s m.1 m.2) rest := rfl

/-- Along any nonempty run of corner-drag moves, the corner opposite the
dragged handle stays at the anchor. -/
lemma anchor_fixed_run (h : Handle) (a : Anchor) (ms : List (ℝ × ℝ)) :
    ms ≠ [] → ∀ s : AppState, midCornerDrag s h a →
      (getOppositeCornerScreenCoord
          (getEllipseBoundingBox (runMoves s ms).ellipseData) h.role).x = a.x ∧
      (getOppositeCornerScreenCoord
          (getEllipseBoundingBox (runMoves s ms).ellipseData) h.role).y = a.y := by
  induction ms with
  | nil => intro hne; exact absurd rfl hne
  | cons m rest ih =>
    intro _ s H
    cases rest with
    | nil => exact anchor_fixed_step s h a m.1 m.2 H
    | cons m2 rest2 =>
      rw [runMoves_cons]
      exact ih (by simp) (onMouseMove s m.1 m.2) (midCornerDrag_move s h a m.1 m.2 H)

lemma radius_floor_step (s : AppState) (h : Handle) (a : Anchor) (mx my : ℝ)
    (H : midCornerDrag s h a) :
    5 ≤ (onMouseMove s mx my).ellipseData.radiusX ∧
    5 ≤ (onMouseMove s mx my).ellipseData.radiusY := by
  rw [onMouseMove_corner s h a mx my H]
  exact ⟨le_max_left 5 _, le_max_left 5 _⟩

lemma radius_floor_run (h : Handle) (a : Anchor) (ms : List (ℝ × ℝ)) :
    ms ≠ [] → ∀ s : AppState, midCornerDrag s h a →
      5 ≤ (runMoves s ms).ellipseData.radiusX ∧
      5 ≤ (runMoves s ms).ellipseData.radiusY := by
  induction ms with
  | nil => intro hne; exact absurd rfl hne
  | cons m rest ih =>
    intro _ s H
    cases rest with
    | nil => exact radius_floor_step s h a m.1 m.2 H
    | cons m2 rest2 =>
      rw [runMoves_cons]
      exact ih (by simp) (onMouseMove s m.1 m.2) (midCornerDrag_move s h a m.1 m.2 H)

/-- Unfolding of `onMouseDown` when the pointer hits a corner handle of the
visible bounding box in resize-shear mode: the drag starts and the anchor is
captured at the opposite corner of the current bounding box. -/
lemma onMouseDown_corner_hit (s : AppState) (h : Handle) (mx my : ℝ)
    (hEll : s.hasEllipse = true) (hShow : s.showBoundingBox = true)
    (hMode : s.editMode = EditMode.resizeShear)
    (hHit : findHandleHit (getHandlesFromBox (getEllipseBoundingBox s.ellipseData)) mx my 6
      = some h)
    (hCorner : h.role.isCorner = true) :
    onMouseDown s mx my 0 =
      { s with
        lastMousePos := (mx, my)
        isDragging := true
        dragHandle := some h
        ellipseData := { s.ellipseData with activeHandle := some h }
        activeAnchor := some (getOppositeCornerScreenCoord
          (getEllipseBoundingBox s.ellipseData) h.role) } := by
  simp [onMouseDown, hEll, hShow, hMode, hHit, corner_not_middle h.role hCorner]

/-- Claim C1: during a corner-handle drag in resize-shear mode (started by a
pointer-down that hits a corner handle), after every pointer-move the screen
position of the bounding-box corner opposite the dragged corner — computed via
the same sampling-based bounding box — equals its position at drag start, the
anchor captured on pointer-down. -/
theorem anchor_preserved_corner_drag (s : AppState) (h : Handle) (mx my : ℝ)
    (ms : List (ℝ × ℝ))
    (hEll : s.hasEllipse = true) (hShow : s.showBoundingBox = true)
    (hMode : s.editMode = EditMode.resizeShear)
    (hHit : findHandleHit (getHandlesFromBox (getEllipseBoundingBox s.ellipseData)) mx my 6
      = some h)
    (hCorner : h.role.isCorner = true) (hms : ms ≠ []) :
    (getOppositeCornerScreenCoord
        (getEllipseBoundingBox (runMoves (onMouseDown s mx my 0) ms).ellipseData) h.role).x
      = (getOppositeCornerScreenCoord (getEllipseBoundingBox s.ellipseData) h.role).x ∧
    (getOppositeCornerScreenCoord
        (getEllipseBoundingBox (runMoves (onMouseDown s mx my 0) ms).ellipseData) h.role).y
      = (getOppositeCornerScreenCoord (getEllipseBoundingBox s.ellipseData) h.role).y := by
  rw [onMouseDown_corner_hit s h mx my hEll hShow hMode hHit hCorner]
  exact anchor_fixed_run h (getOppositeCornerScreenCoord (getEllipseBoundingBox s.ellipseData)
      h.role) ms hms _
    ⟨hEll, rfl, rfl, hMode, hCorner, rfl,
      oppositeRole_of_corner (getEllipseBoundingBox s.ellipseData) h.role hCorner⟩

lemma visState_box : getEllipseBoundingBox visState.ellipseData = ⟨50, 70, 100, 60⟩ := by
  have := box_axis 100 100 50 30 (by norm_num) (by norm_num) none
  rw [show visState.ellipseData = ⟨100, 100, 50, 30, 0, 0, 0, none⟩ from rfl, this]
  norm_num

lemma visState_hit :
    findHandleHit (getHandlesFromBox (getEllipseBoundingBox visState.ellipseData)) 50 70 6
      = some ⟨50, 70, Role.topLeft⟩ := by
  rw [visState_box]
  norm_num [getHandlesFromBox, findHandleHit]

/-- Witness for claim C1: dragging the top-left corner of the example shape by
one move to (60, 80) keeps the bottom-right corner of the sampled bounding box
at its pre-drag position. -/
theorem anchor_preserved_corner_drag_witness :
    (visState.hasEllipse = true ∧ visState.showBoundingBox = true ∧
     visState.editMode = EditMode.resizeShear ∧
     findHandleHit (getHandlesFromBox (getEllipseBoundingBox visState.ellipseData)) 50 70 6
       = some ⟨50, 70, Role.topLeft⟩ ∧
     Role.isCorner Role.topLeft = true ∧
     ([((60 : ℝ), (80 : ℝ))] : List (ℝ × ℝ)) ≠ []) ∧
    ((getOppositeCornerScreenCoord
        (getEllipseBoundingBox
          (runMoves (onMouseDown visState 50 70 0) [(60, 80)]).ellipseData) Role.topLeft).x
      = (getOppositeCornerScreenCoord (getEllipseBoundingBox visState.ellipseData)
          Role.topLeft).x ∧
     (getOppositeCornerScreenCoord
        (getEllipseBoundingBox
          (runMoves (onMouseDown visState 50 70 0) [(60, 80)]).ellipseData) Role.topLeft).y
      = (getOppositeCornerScreenCoord (getEllipseBoundingBox visState.ellipseData)
          Role.topLeft).y) :=
  ⟨⟨rfl, rfl, rfl, visState_hit, rfl, by simp⟩,
    anchor_preserved_corner_drag visState ⟨50, 70, Role.topLeft⟩ 50 70 [(60, 80)]
      rfl rfl rfl visState_hit rfl (by simp)⟩

lemma rotate_unrotate (x y r : ℝ) :
    rotatePoint (rotatePoint x y r).1 (rotatePoint x y r).2 (-r) = (x, y) := by
  have hcs := Real.sin_sq_add_cos_sq r
  simp only [rotatePoint, Real.cos_neg, Real.sin_neg, Prod.mk.injEq]
  constructor
  · linear_combination x * hcs
  · linear_combination y * hcs

lemma dragState_mid :
    midCornerDrag dragState ⟨50, 70, Role.topLeft⟩ ⟨150, 130, some Role.bottomRight⟩ :=
  ⟨rfl, rfl, rfl, rfl, rfl, rfl, rfl⟩

/-- Claim C7: from any mid-corner-drag state, whatever the starting radii,
after every pointer-move event of the drag both radii are at least 5; the
clamp `max 5` is reapplied on each move. -/
theorem radius_floor_corner_drag (s : AppState) (h : Handle) (a : Anchor)
    (H : midCornerDrag s h a) (ms : List (ℝ × ℝ)) (hms : ms ≠ []) :
    5 ≤ (runMoves s ms).ellipseData.radiusX ∧ 5 ≤ (runMoves s ms).ellipseData.radiusY :=
  radius_floor_run h a ms hms s H

/-- Witness for claim C7: a hard shrink-drag of the top-left handle to
(200, 200) still leaves both radii at least 5. -/
theorem radius_floor_corner_drag_witness :
    midCornerDrag dragState ⟨50, 70, Role.topLeft⟩ ⟨150, 130, some Role.bottomRight⟩ ∧
    ([((200 : ℝ), (200 : ℝ))] : List (ℝ × ℝ)) ≠ [] ∧
    (5 ≤ (runMoves dragState [(200, 200)]).ellipseData.radiusX ∧
     5 ≤ (runMoves dragState [(200, 200)]).ellipseData.radiusY) :=
  ⟨dragState_mid, by simp,
    radius_floor_corner_drag dragState ⟨50, 70, Role.topLeft⟩
      ⟨150, 130, some Role.bottomRight⟩ dragState_mid [(200, 200)] (by simp)⟩

/-- Claim C2 (amended): during a corner-handle resize move the new center is
computed per the spec's steps (c)-(d) — offset between a corner of the
zero-centered box with the new radii and current shear/rotation and the fixed
anchor's screen coordinates — but the corner-to-box-corner mapping is applied
to the anchor (opposite) corner's role, not the dragged corner's role. -/
theorem resize_center_anchor_role (s : AppState) (h : Handle) (a : Anchor) (mx my : ℝ)
    (H : midCornerDrag s h a) :
    ((onMouseMove s mx my).ellipseData.centerX, (onMouseMove s mx my).ellipseData.centerY) =
      specResizeCenter (onMouseMove s mx my).ellipseData.radiusX
        (onMouseMove s mx my).ellipseData.radiusY
        (onMouseMove s mx my).ellipseData.shearX
        (onMouseMove s mx my).ellipseData.shearY
        (onMouseMove s mx my).ellipseData.rotation
        (oppositeRole h.role) (a.x, a.y) := by
  have hCorner := H.2.2.2.2.1
  have hRole := H.2.2.2.2.2.2
  rw [onMouseMove_corner s h a mx my H]
  rcases h with ⟨hx, hy, hrole⟩
  cases hrole
  case topMiddle => exact absurd hCorner (by simp [Role.isCorner])
  case bottomMiddle => exact absurd hCorner (by simp [Role.isCorner])
  case leftMiddle => exact absurd hCorner (by simp [Role.isCorner])
  case rightMiddle => exact absurd hCorner (by simp [Role.isCorner])
  all_goals simp only [oppositeRole] at hRole
  all_goals simp [hRole, specResizeCenter, computeEllipseCenterForBoxTopLeft, oppositeRole]

/-- Witness for claim C2 (amended): one concrete corner-drag move on the
example drag state. -/
theorem resize_center_anchor_role_witness :
    midCornerDrag dragState ⟨50, 70, Role.topLeft⟩ ⟨150, 130, some Role.bottomRight⟩ ∧
    ((onMouseMove dragState 60 80).ellipseData.centerX,
      (onMouseMove dragState 60 80).ellipseData.centerY) =
      specResizeCenter (onMouseMove dragState 60 80).ellipseData.radiusX
        (onMouseMove dragState 60 80).ellipseData.radiusY
        (onMouseMove dragState 60 80).ellipseData.shearX
        (onMouseMove dragState 60 80).ellipseData.shearY
        (onMouseMove dragState 60 80).ellipseData.rotation
        (oppositeRole Role.topLeft) (150, 130) :=
  ⟨dragState_mid,
    resize_center_anchor_role dragState ⟨50, 70, Role.topLeft⟩
      ⟨150, 130, some Role.bottomRight⟩ 60 80 dragState_mid⟩

/-- Counterexample to claim C2 as stated: applying the corner-to-box-corner
mapping to the dragged corner's role (here `top-left`) yields `(200, 160)`,
while the code — which passes `activeAnchor.role`, the opposite corner's role
— sets the center to `(100, 100)`. -/
theorem resize_center_dragged_role_counterexample :
    ((onMouseMove dragState 50 70).ellipseData.centerX,
      (onMouseMove dragState 50 70).ellipseData.centerY) ≠
      specResizeCenter (onMouseMove dragState 50 70).ellipseData.radiusX
        (onMouseMove dragState 50 70).ellipseData.radiusY
        (onMouseMove dragState 50 70).ellipseData.shearX
        (onMouseMove dragState 50 70).ellipseData.shearY
        (onMouseMove dragState 50 70).ellipseData.rotation
        Role.topLeft (150, 130) := by
  have hstep := onMouseMove_corner dragState ⟨50, 70, Role.topLeft⟩
    ⟨150, 130, some Role.bottomRight⟩ 50 70 dragState_mid
  have hb : getEllipseBoundingBox (⟨0, 0, 50, 30, 0, 0, 0, none⟩ : EllipseData)
      = ⟨-50, -30, 100, 60⟩ := by
    rw [box_axis 0 0 50 30 (by norm_num) (by norm_num) none]
    norm_num
  rw [hstep]
  norm_num [dragState, Role.includesLeft, Role.includesTop, max_def,
    computeEllipseCenterForBoxTopLeft, specResizeCenter, hb, Prod.ext_iff]

/-- Claim C3: for a non-degenerate shear (`|1 - shearX·shearY| ≥ 1e-10`), any
rotation and any point, the inverse transform undoes the forward transform
exactly. -/
theorem transform_roundtrip (shearX shearY rotation x y : ℝ)
    (hdet : 1e-10 ≤ |1 - shearX * shearY|) :
    inverseTransformPoint (transformPoint x y shearX shearY rotation).1
      (transformPoint x y shearX shearY rotation).2 shearX shearY rotation
      = some (x, y) := by
  have hne : (1 : ℝ) - shearX * shearY ≠ 0 := by
    intro h0
    rw [h0, abs_zero] at hdet
    norm_num at hdet
  have hlt : ¬ |1 - shearX * shearY| < 1e-10 := not_lt.2 hdet
  simp only [inverseTransformPoint, transformPoint]
  rw [if_neg hlt, rotate_unrotate]
  simp only [shearPoint, Option.some.injEq, Prod.mk.injEq]
  constructor
  · field_simp
    ring
  · field_simp
    ring

/-- Witness for claim C3: shear (2, 3), rotation 0, point (1, 2). -/
theorem transform_roundtrip_witness :
    ((1e-10 : ℝ) ≤ |1 - (2 : ℝ) * 3|) ∧
    inverseTransformPoint (transformPoint 1 2 2 3 0).1 (transformPoint 1 2 2 3 0).2 2 3 0
      = some (1, 2) :=
  ⟨by
    rw [show (1 : ℝ) - 2 * 3 = -5 by norm_num, abs_neg,
      abs_of_nonneg (by norm_num : (0 : ℝ) ≤ 5)]
    norm_num,
   transform_roundtrip 2 3 0 1 2 (by
    rw [show (1 : ℝ) - 2 * 3 = -5 by norm_num, abs_neg,
      abs_of_nonneg (by norm_num : (0 : ℝ) ≤ 5)]
    norm_num)⟩

/-- Claim C6: for a degenerate shear (`|1 - shearX·shearY| < 1e-10`, the
exact threshold the code tests) `isPointInEllipse` returns `false` for every
query point, with no error. -/
theorem degenerate_shear_outside (mx my : ℝ) (e : EllipseData)
    (hdeg : |1 - e.shearX * e.shearY| < 1e-10) :
    isPointInEllipse mx my e = false := by
  simp only [isPointInEllipse]
  rw [if_pos hdeg]

/-- Witness for claim C6: `shearX = shearY = 1` is degenerate and the point
(3, 4) is classified outside. -/
theorem degenerate_shear_outside_witness :
    (|1 - (⟨0, 0, 10, 10, 0, 1, 1, none⟩ : EllipseData).shearX *
        (⟨0, 0, 10, 10, 0, 1, 1, none⟩ : EllipseData).shearY| < 1e-10) ∧
    isPointInEllipse 3 4 ⟨0, 0, 10, 10, 0, 1, 1, none⟩ = false :=
  ⟨by norm_num,
   degenerate_shear_outside 3 4 ⟨0, 0, 10, 10, 0, 1, 1, none⟩ (by norm_num)⟩

/-- Claim C4 (amended): a shape finalized by a second click with no
intervening pointer-move (radii still both 0) gets radii 10, hence both at
least 5; finalization after intervening moves keeps the live-preview radii,
which can be below 5 (see the counterexample). -/
theorem finalize_radii_default (s : AppState) (mx my : ℝ)
    (h1 : s.hasEllipse = false) (h2 : s.isDrawing = true)
    (h3 : s.ellipseData.radiusX = 0) (h4 : s.ellipseData.radiusY = 0) :
    (onMouseDown s mx my 0).hasEllipse = true ∧
    (onMouseDown s mx my 0).ellipseData.radiusX = 10 ∧
    (onMouseDown s mx my 0).ellipseData.radiusY = 10 ∧
    5 ≤ (onMouseDown s mx my 0).ellipseData.radiusX ∧
    5 ≤ (onMouseDown s mx my 0).ellipseData.radiusY := by
  norm_num [onMouseDown, h1, h2, h3, h4]

/-- Witness for claim C4 (amended): the second click right after the first. -/
theorem finalize_radii_default_witness :
    (creatingState.hasEllipse = false ∧ creatingState.isDrawing = true ∧
     creatingState.ellipseData.radiusX = 0 ∧ creatingState.ellipseData.radiusY = 0) ∧
    ((onMouseDown creatingState 5 5 0).hasEllipse = true ∧
     (onMouseDown creatingState 5 5 0).ellipseData.radiusX = 10 ∧
     (onMouseDown creatingState 5 5 0).ellipseData.radiusY = 10 ∧
     5 ≤ (onMouseDown creatingState 5 5 0).ellipseData.radiusX ∧
     5 ≤ (onMouseDown creatingState 5 5 0).ellipseData.radiusY) :=
  ⟨⟨rfl, rfl, rfl, rfl⟩, finalize_radii_default creatingState 5 5 rfl rfl rfl rfl⟩

/-- Counterexample to claim C4 as stated: click at (0, 0), move to (2, 3),
click again — the shape is finalized with `radiusX = 2 < 5` because the
default-to-10 branch fires only when both radii are exactly 0. -/
theorem finalize_radii_after_moves_counterexample :
    (run initialState [Event.down 0 0 0, Event.move 2 3, Event.down 5 5 0]).hasEllipse
      = true ∧
    (run initialState [Event.down 0 0 0, Event.move 2 3, Event.down 5 5 0]).ellipseData.radiusX
      < 5 := by
  have hrun : run initialState [Event.down 0 0 0, Event.move 2 3, Event.down 5 5 0]
      = step (step (step initialState (Event.down 0 0 0)) (Event.move 2 3))
          (Event.down 5 5 0) := rfl
  rw [hrun]
  norm_num [step, onMouseDown, onMouseMove, initialState, abs_of_nonneg]

/-- Claim C5 (amended): pointer-up clears the dragging flag, the dragged-handle
reference (`dragHandle`) and the active anchor, and stays in the current
visible state; `ellipseData` — including its `activeHandle` field, which the
script never nulls — is left unchanged. -/
theorem mouseup_clears_drag (s : AppState) :
    (onMouseUp s).isDragging = false ∧ (onMouseUp s).dragHandle = none ∧
    (onMouseUp s).activeAnchor = none ∧ (onMouseUp s).hasEllipse = s.hasEllipse ∧
    (onMouseUp s).showBoundingBox = s.showBoundingBox ∧
    (onMouseUp s).editMode = s.editMode ∧
    (onMouseUp s).ellipseData = s.ellipseData :=
  ⟨rfl, rfl, rfl, rfl, rfl, rfl, rfl⟩

/-- Counterexample to claim C5 as stated: after pointer-up ends a drag, no
drag is in progress, yet the ShapeModel's `activeHandle` field still holds the
last dragged handle instead of `null`. -/
theorem mouseup_activeHandle_counterexample :
    (onMouseUp dragState).isDragging = false ∧
    (onMouseUp dragState).ellipseData.activeHandle ≠ none :=
  ⟨rfl, by simp [onMouseUp, dragState]⟩

/-- Claim C8: the sampling-based bounding box of the shape with center
(100, 100), radii (50, 30) and no shear or rotation is exactly
`x = 50, y = 70, width = 100, height = 60`. -/
theorem scenario_bounding_box :
    getEllipseBoundingBox ⟨100, 100, 50, 30, 0, 0, 0, none⟩ = ⟨50, 70, 100, 60⟩ := by
  rw [box_axis 100 100 50 30 (by norm_num) (by norm_num) none]
  norm_num

/-- Claim C9: for every shape parameter record the sampled bounding box has
nonnegative width and height, being a min/max reduction over the nonempty
61-point sample list. -/
theorem box_dims_nonneg (e : EllipseData) :
    0 ≤ (getEllipseBoundingBox e).width ∧ 0 ≤ (getEllipseBoundingBox e).height := by
  have hx : (getEllipsePoints e 60).map Prod.fst ≠ [] := fun hcon =>
    getEllipsePoints_ne_nil e (List.map_eq_nil_iff.1 hcon)
  have hy : (getEllipsePoints e 60).map Prod.snd ≠ [] := fun hcon =>
    getEllipsePoints_ne_nil e (List.map_eq_nil_iff.1 hcon)
  simp only [getEllipseBoundingBox]
  exact ⟨sub_nonneg.2 (listMin_le_listMax _ hx), sub_nonneg.2 (listMin_le_listMax _ hy)⟩

/-- Claim C10: the context-menu handler only hides the bounding box; the whole
`ellipseData` record, the edit mode, the drag bookkeeping and the last pointer
position are untouched, so a drag in progress continues while the box is
hidden. -/
theorem contextmenu_only_hides_box (s : AppState) :
    (onContextMenu s).showBoundingBox = false ∧
    (onContextMenu s).ellipseData = s.ellipseData ∧
    (onContextMenu s).editMode = s.editMode ∧
    (onContextMenu s).isDragging = s.isDragging ∧
    (onContextMenu s).dragHandle = s.dragHandle ∧
    (onContextMenu s).activeAnchor = s.activeAnchor ∧
    (onContextMenu s).hasEllipse = s.hasEllipse ∧
    (onContextMenu s).isDrawing = s.isDrawing ∧
    (onContextMenu s).lastMousePos = s.lastMousePos :=
  ⟨rfl, rfl, rfl, rfl, rfl, rfl, rfl, rfl, rfl⟩

end Ellipse
